import Mathlib

/-!
Verification of the moda-trading core services against their specification.

The development shallowly embeds the three core components of the repository:

* the portfolio service (`src/portfolio-service/main.py`):
  `execute_trade`, `update_positions`, `update_position_values`;
* the strategy engine (`src/strategy-engine/main.py`):
  the `RiskManager` calculations, the buy/sell filters,
  `generate_trade_signal` and `process_ml_recommendations`;
* the data-ingestion orchestrator (`src/data-ingestion/orchestrator/main.py`):
  the API-budget tracker and `call_service_endpoint`.

Python numerics are modelled exactly over `ℚ`:

* `decimal.Decimal` values are arbitrary rationals; every `Decimal`
  arithmetic operation rounds its result to 28 significant digits with
  ROUND_HALF_EVEN (the CPython default context) — `decAdd`, `decSub`,
  `decMul`, `decDiv`;
* CPython `float` is IEEE-754 binary64; `pyFloat` rounds a rational to the
  nearest binary64 value (round-half-even on a 53-bit significand; the
  inputs arising here are all in the normal, non-overflowing range, so
  subnormals and infinities are not modelled);
* `str(f)` of a float is the shortest decimal string that round-trips
  (CPython `repr`); `pyRepr` computes the rational value of that string.
  A float field written to the document store is therefore observed by
  every reader of this code base (which always reads it back through
  `Decimal(str(...))`) as `reprFloat x = pyRepr (pyFloat x)`.

The document store (Firestore) is modelled per collection as a list of
records in document order; a query is a filter over it, `upsert` replaces
the record with the same id or appends, `update` replaces in place, and
`delete` removes by id.
-/

-- Batteries marks the `Rat` field operations `@[irreducible]`; restore
-- semireducibility so that concrete rational computations evaluate.
set_option allowUnsafeReducibility true

attribute [semireducible] Rat.add Rat.sub Rat.mul Rat.inv

set_option maxRecDepth 8000

/-- Integer power `10 ^ e` over `ℚ` for an integer exponent. -/
def zpow10 (e : ℤ) : ℚ :=
  if 0 ≤ e then ((10 : ℚ) ^ e.toNat) else 1 / ((10 : ℚ) ^ (-e).toNat)

/-- Integer power `2 ^ e` over `ℚ` for an integer exponent. -/
def zpow2 (e : ℤ) : ℚ :=
  if 0 ≤ e then ((2 : ℚ) ^ e.toNat) else 1 / ((2 : ℚ) ^ (-e).toNat)

/-- Floor of a nonnegative rational, as a natural number. -/
def posFloor (x : ℚ) : ℕ := x.num.toNat / x.den

/-- Round a nonnegative rational to the nearest natural number,
ties to even (the rounding used both by IEEE-754 binary64 and by the
CPython `Decimal` default context). -/
def roundHE (x : ℚ) : ℕ :=
  let f := posFloor x
  let r := x - (f : ℚ)
  if r < 1 / 2 then f
  else if 1 / 2 < r then f + 1
  else if f % 2 = 0 then f else f + 1

/-- Fuelled floor logarithm on `ℕ` (kernel-reducible, unlike `Nat.log`):
`logFuel b fuel n` is `⌊log b n⌋` for `1 ≤ n < b ^ fuel` and `2 ≤ b`. -/
def logFuel (b : ℕ) : ℕ → ℕ → ℕ
  | 0, _ => 0
  | fuel + 1, n => if n < b then 0 else logFuel b fuel (n / b) + 1

/-- First guess for `⌊log b x⌋` of a positive rational. -/
def qlogAux (b : ℕ) (x : ℚ) : ℤ :=
  (logFuel b 300 x.num.toNat : ℤ) - (logFuel b 300 x.den : ℤ)

/-- Computes `⌊log₂ x⌋` for a positive rational (junk on `x ≤ 0`).
The initial guess is off by at most one; a comparison window of ±2
around it makes the result self-correcting. -/
def qlog2 (x : ℚ) : ℤ :=
  let e := qlogAux 2 x
  if x < zpow2 (e - 1) then e - 2
  else if x < zpow2 e then e - 1
  else if x < zpow2 (e + 1) then e
  else if x < zpow2 (e + 2) then e + 1
  else e + 2

/-- Computes `⌊log₁₀ x⌋` for a positive rational (junk on `x ≤ 0`). -/
def qlog10 (x : ℚ) : ℤ :=
  let e := qlogAux 10 x
  if x < zpow10 (e - 1) then e - 2
  else if x < zpow10 e then e - 1
  else if x < zpow10 (e + 1) then e
  else if x < zpow10 (e + 2) then e + 1
  else e + 2

/-- Round a positive rational to `p` significant decimal digits,
half to even (0 on nonpositive input). -/
def roundSigPos (p : ℕ) (a : ℚ) : ℚ :=
  if a ≤ 0 then 0
  else
    let e := qlog10 a
    let scale := zpow10 (e - (p : ℤ) + 1)
    (roundHE (a / scale) : ℚ) * scale

/-- The exact rational value of the IEEE-754 binary64 (CPython `float`)
nearest to `x`, round half to even.  Faithful on the normal range, which
covers every value arising in this code base. -/
def pyFloat (x : ℚ) : ℚ :=
  if x = 0 then 0
  else
    let a := |x|
    let e := qlog2 a
    let ulp := zpow2 (e - 52)
    let m : ℚ := (roundHE (a / ulp) : ℚ) * ulp
    if x < 0 then -m else m

/-- The rational value of CPython `repr`/`str` of a binary64 value `x`:
the shortest decimal (at most 17 significant digits) that rounds back to
exactly `x`, i.e. what `Decimal(str(f))` evaluates to. -/
def pyRepr (x : ℚ) : ℚ :=
  if x = 0 then 0
  else
    let a := |x|
    let s : ℚ := if x < 0 then -1 else 1
    match (List.range 17).findSome? (fun i =>
        let r := roundSigPos (i + 1) a
        if pyFloat (s * r) = x then some (s * r) else none) with
    | some r => r
    | none => s * roundSigPos 17 a

/-- The value a reader observes after a rational has been stored through
CPython `float(...)` and read back through `Decimal(str(...))`. -/
def reprFloat (x : ℚ) : ℚ := pyRepr (pyFloat x)

/-- Rounding applied by every arithmetic operation of the CPython
`decimal` default context: 28 significant digits, half to even. -/
def round28 (x : ℚ) : ℚ :=
  if x < 0 then -(roundSigPos 28 (-x)) else roundSigPos 28 x

/-- Python `Decimal` addition. -/
def decAdd (a b : ℚ) : ℚ := round28 (a + b)

/-- Python `Decimal` subtraction. -/
def decSub (a b : ℚ) : ℚ := round28 (a - b)

/-- Python `Decimal` multiplication. -/
def decMul (a b : ℚ) : ℚ := round28 (a * b)

/-- Python `Decimal` division (0 on a zero divisor; the code paths modelled
here never divide by zero — Python would raise, and the surrounding
`except` block would abandon the operation). -/
def decDiv (a b : ℚ) : ℚ := if b = 0 then 0 else round28 (a / b)

/-! ## Shared data model (`src/shared/models.py`) -/

/-- Model of `shared.models.TransactionType`. -/
inductive TransactionType
  | buy
  | sell
deriving DecidableEq, Repr

/-- Model of `shared.models.PositionStatus`. -/
inductive PositionStatus
  | active
  | closed
deriving DecidableEq, Repr

/-- Model of `shared.models.RecommendationType`. -/
inductive RecommendationType
  | buy
  | hold
  | sell
deriving DecidableEq, Repr

/-- Document ids of the form `f"{symbol}_{timestamp}"` are modelled as the
(symbol, timestamp) pair that determines them. -/
abbrev DocId := String × ℕ

/-- A document of the `pf_positions_active` / `pf_positions_history`
collections (`shared.models.Position` plus the `id` attached by
`FirestoreClient.query_documents`).  Timestamps are naturals; monetary
fields are the rational values observed by readers of the store. -/
structure PositionDoc where
  id : DocId
  symbol : String
  quantity : ℤ
  average_cost : ℚ
  current_price : Option ℚ := none
  market_value : Option ℚ := none
  unrealized_pnl : Option ℚ := none
  status : PositionStatus
  opened_at : ℕ := 0
  closed_at : Option ℕ := none
  updated_at : ℕ := 0
deriving DecidableEq, Repr

/-- Model of `shared.models.Transaction`. -/
structure Transaction where
  symbol : String
  transaction_type : TransactionType
  quantity : ℤ
  price : ℚ
  total_amount : ℚ := 0
  fees : ℚ := 0
  executed_at : ℕ := 0
deriving DecidableEq, Repr

/-- A trade-signal document as consumed by
`PortfolioManager.execute_trade` (`shared.models.TradeSignal`);
`price_limit = none` models a signal dict without a usable limit price. -/
structure SignalDoc where
  symbol : String
  signal_type : RecommendationType
  quantity : ℤ
  price_limit : Option ℚ := none
  stop_loss : Option ℚ := none
  take_profit : Option ℚ := none
  confidence : ℚ := 0
deriving DecidableEq, Repr

/-! ## Document-store model (`shared/firestore_client.py`)

A collection is a list of documents in document order.  `upsert_document`
(`set` with `merge=True`, always called here with every field present)
replaces the document with the given id or appends a new one;
`update_document` replaces in place (and is a no-op on a missing id, where
Python would raise and the caller's `except` block would swallow the
error); `delete_document` removes by id. -/

/-- First document with the given id, if any. -/
def getById (l : List PositionDoc) (i : DocId) : Option PositionDoc :=
  l.find? (fun d => d.id = i)

/-- Model of `update_document`: replace the document with id `i` by `d`. -/
def replaceById (l : List PositionDoc) (i : DocId) (d : PositionDoc) :
    List PositionDoc :=
  l.map (fun x => if x.id = i then d else x)

/-- Model of `upsert_document`: replace the document with id `i`, or append. -/
def upsertById (l : List PositionDoc) (i : DocId) (d : PositionDoc) :
    List PositionDoc :=
  if l.any (fun x => x.id = i) then replaceById l i d else l ++ [d]

/-- Model of `delete_document`: remove the document with id `i`. -/
def deleteById (l : List PositionDoc) (i : DocId) : List PositionDoc :=
  l.filter (fun x => x.id ≠ i)

/-- The portfolio service's view of the document store:
the two position partitions, the transaction log, and — for each symbol —
the close price `PortfolioManager.get_current_price` would resolve for it
(the query orders `di_prices_daily` by date with limit 1; the model keeps
only its outcome per symbol). -/
structure Store where
  active : List PositionDoc
  history : List PositionDoc
  transactions : List Transaction
  prices : String → Option ℚ

/-! ## Portfolio service (`src/portfolio-service/main.py`) -/

/-- Model of `PortfolioManager.get_current_price`. -/
def get_current_price (s : Store) (symbol : String) : Option ℚ :=
  s.prices symbol

/-- Model of `PortfolioManager.update_positions` (lines 150–241): apply a recorded
transaction to the `pf_positions_active` / `pf_positions_history`
partitions.  `now` is `datetime.now()` at update time.  The blended
average cost of a buy into an existing position is stored through
`float(...)` (line 176), hence observed as `reprFloat` of the 28-digit
decimal quotient. -/
def update_positions (s : Store) (tx : Transaction) (now : ℕ) : Store :=
  let positions := s.active.filter
    (fun p => p.symbol = tx.symbol ∧ p.status = PositionStatus.active)
  match tx.transaction_type with
  | TransactionType.buy =>
    match positions.head? with
    | some pos =>
        let total_cost := decAdd (decMul (pos.quantity : ℚ) pos.average_cost)
                                 (decMul (tx.quantity : ℚ) tx.price)
        let new_quantity := pos.quantity + tx.quantity
        let new_average_cost := decDiv total_cost (new_quantity : ℚ)
        let upd := { pos with quantity := new_quantity,
                              average_cost := reprFloat new_average_cost,
                              updated_at := now }
        { s with active := replaceById s.active pos.id upd }
    | none =>
        let newPos : PositionDoc :=
          { id := (tx.symbol, now), symbol := tx.symbol,
            quantity := tx.quantity, average_cost := tx.price,
            status := PositionStatus.active, opened_at := tx.executed_at,
            updated_at := now }
        { s with active := upsertById s.active newPos.id newPos }
  | TransactionType.sell =>
    match positions.head? with
    | none => s
    | some pos =>
      if pos.quantity ≤ tx.quantity then
        let closedPos := { pos with status := PositionStatus.closed,
                                    closed_at := some tx.executed_at,
                                    quantity := 0 }
        { s with history := upsertById s.history pos.id closedPos,
                 active := deleteById s.active pos.id }
      else
        let upd := { pos with quantity := pos.quantity - tx.quantity,
                              updated_at := now }
        { s with active := replaceById s.active pos.id upd }

/-- Model of `PortfolioManager.execute_trade` (lines 91–148).  Python's
`if not current_price` treats both a missing price and a zero `Decimal`
as falsy.  Returns the recorded transaction (the code returns its
document id; the transaction itself is the observable content) and the
updated store. -/
def execute_trade (s : Store) (signal : SignalDoc) (now : ℕ) :
    Option Transaction × Store :=
  match get_current_price s signal.symbol with
  | none => (none, s)
  | some current_price =>
    if current_price = 0 then (none, s)
    else
      let execution_price := signal.price_limit.getD current_price
      let transaction_type := if signal.signal_type = RecommendationType.buy
        then TransactionType.buy else TransactionType.sell
      let total_amount := decMul execution_price (signal.quantity : ℚ)
      let fees := decMul total_amount (mkRat 1 1000)
      let tx : Transaction :=
        { symbol := signal.symbol, transaction_type := transaction_type,
          quantity := signal.quantity, price := execution_price,
          total_amount := total_amount, fees := fees, executed_at := now }
      let s1 := { s with transactions := s.transactions ++ [tx] }
      (some tx, update_positions s1 tx now)

/-- The refreshed document written back by one iteration of
`PortfolioManager.update_position_values` for a position with resolved
close price `cp`: `market_value = cp * quantity` and
`unrealized_pnl = (cp - average_cost) * quantity` in `Decimal`
arithmetic, all three monetary fields stored through `float(...)`. -/
def upv_update (cp : ℚ) (now : ℕ) (pos : PositionDoc) : PositionDoc :=
  { pos with
    current_price := some (reprFloat cp),
    market_value := some (reprFloat (decMul cp (pos.quantity : ℚ))),
    unrealized_pnl :=
      some (reprFloat (decMul (decSub cp pos.average_cost) (pos.quantity : ℚ))),
    updated_at := now }

/-- One iteration of the `update_position_values` loop: skip when no
close price resolves or it is the falsy zero, else write the refreshed
document over the one with the same id. -/
def upv_step (s : Store) (now : ℕ) (acc : List PositionDoc)
    (pos : PositionDoc) : List PositionDoc :=
  match get_current_price s pos.symbol with
  | none => acc
  | some current_price =>
    if current_price = 0 then acc
    else replaceById acc pos.id (upv_update current_price now pos)

/-- Model of `PortfolioManager.update_position_values` (lines 243–277): iterate
over the queried snapshot of active positions, refreshing each one's
valuation fields in the store. -/
def update_position_values (s : Store) (now : ℕ) : Store :=
  let positions := s.active.filter (fun p => p.status = PositionStatus.active)
  { s with active := positions.foldl (upv_step s now) s.active }

/-- A store with empty collections and no price data. -/
def emptyStore : Store :=
  { active := [], history := [], transactions := [], prices := fun _ => none }

/-- A buy transaction on symbol "A" with quantity `q` at price `p`. -/
def buyTx (q : ℤ) (p : ℚ) (t : ℕ) : Transaction :=
  { symbol := "A", transaction_type := TransactionType.buy, quantity := q,
    price := p, total_amount := decMul p (q : ℚ), executed_at := t }

/-- The store after the buy sequence (q₁,p₁) = (1,1), (q₂,p₂) = (2,2). -/
def c1Store : Store :=
  update_positions (update_positions emptyStore (buyTx 1 1 0) 0) (buyTx 2 2 1) 1

/-! ## Strategy engine (`src/strategy-engine/main.py`) -/

/-- A document of `ml_recommendations_log`
(`shared.models.MLRecommendation`, the fields the engine reads). -/
structure RecDoc where
  symbol : String
  recommendation : RecommendationType
  confidence_score : ℚ
deriving DecidableEq, Repr

/-- The strategy engine's view of the document store: the
recommendations of the trailing 24-hour window in ascending `created_at`
order (the Firestore `order_by` default direction), the active-position
partition, and the close price `get_current_price` resolves per symbol. -/
structure StratStore where
  recs : List RecDoc
  active : List PositionDoc
  prices : String → Option ℚ

/-- Model of `RiskManager.max_position_size_pct = 0.10` (a Python float literal,
hence the binary64 nearest to 1/10). -/
def max_position_size_pct : ℚ := pyFloat (10 / 100)

/-- Model of `RiskManager.stop_loss_pct = 0.08`. -/
def stop_loss_pct : ℚ := pyFloat (8 / 100)

/-- Model of `RiskManager.take_profit_pct = 0.15`. -/
def take_profit_pct : ℚ := pyFloat (15 / 100)

/-- Model of `RiskManager.min_confidence_threshold = 80.0` (exact in binary64). -/
def min_confidence_threshold : ℚ := 80

/-- Model of `RiskManager.get_portfolio_value` (lines 79–102): sum of the truthy
`market_value` fields over the queried active positions; a missing field
contributes nothing (`position.get('market_value', 0)` is falsy), and a
zero total falls back to the default `Decimal('10000')`. -/
def get_portfolio_value (s : StratStore) : ℚ :=
  let total := (s.active.filter
      (fun p => p.status = PositionStatus.active)).foldl
    (fun total position =>
      match position.market_value with
      | none => total
      | some mv => if mv = 0 then total else decAdd total mv) 0
  if total = 0 then 10000 else total

/-- Model of `RiskManager.get_position_value` (lines 104–121): the `market_value`
of the first active position for the symbol, defaulting to `Decimal('0')`
when there is no position or the field is absent (a present-but-`None`
field raises inside the `try` and likewise yields `Decimal('0')`). -/
def get_position_value (s : StratStore) (symbol : String) : ℚ :=
  match (s.active.filter
      (fun p => p.symbol = symbol ∧ p.status = PositionStatus.active)).head? with
  | some position => position.market_value.getD 0
  | none => 0

/-- Model of `RiskManager.check_portfolio_risk_limits` (lines 175–195): false iff
the active-position count has reached 20. -/
def check_portfolio_risk_limits (s : StratStore) : Bool :=
  if 20 ≤ (s.active.filter (fun p => p.status = PositionStatus.active)).length
  then false else true

/-- CPython `int(...)` on a `Decimal`: truncation toward zero. -/
def pyInt (x : ℚ) : ℤ := x.num.tdiv (x.den : ℤ)

/-- Model of `RiskManager.calculate_position_size` (lines 123–155).  `confidence`
is a Python float; `confidence / 1000` and the allocation product are
float operations, and `Decimal(str(adjusted_allocation))` is the repr
round-trip.  On a zero price Python raises and the `except` branch
returns 1, which coincides with `max 1` of the zero quotient produced by
`decDiv`. -/
def calculate_position_size (s : StratStore) (current_price : ℚ)
    (confidence : ℚ) : ℤ :=
  let portfolio_value := get_portfolio_value s
  let base_allocation :=
    min max_position_size_pct (pyFloat (confidence * mkRat 1 1000))
  let confidence_multiplier := min (pyFloat (confidence * mkRat 1 100)) 1
  let adjusted_allocation := pyFloat (base_allocation * confidence_multiplier)
  let position_value := decMul portfolio_value (pyRepr adjusted_allocation)
  max 1 (pyInt (decDiv position_value current_price))

/-- Model of `RiskManager.calculate_stop_loss` (lines 157–164). -/
def calculate_stop_loss (entry_price : ℚ)
    (signal_type : RecommendationType) : ℚ :=
  match signal_type with
  | RecommendationType.buy =>
      decMul entry_price (decSub 1 (pyRepr stop_loss_pct))
  | RecommendationType.sell =>
      decMul entry_price (decAdd 1 (pyRepr stop_loss_pct))
  | RecommendationType.hold => entry_price

/-- Model of `RiskManager.calculate_take_profit` (lines 166–173). -/
def calculate_take_profit (entry_price : ℚ)
    (signal_type : RecommendationType) : ℚ :=
  match signal_type with
  | RecommendationType.buy =>
      decMul entry_price (decAdd 1 (pyRepr take_profit_pct))
  | RecommendationType.sell =>
      decMul entry_price (decSub 1 (pyRepr take_profit_pct))
  | RecommendationType.hold => entry_price

/-- Model of `StrategyEngine.apply_buy_filters` (lines 243–272), in source order:
confidence threshold, then `get_position_value > 0`, then portfolio
limits. -/
def apply_buy_filters (s : StratStore) (recommendation : RecDoc) : Bool :=
  if recommendation.confidence_score < min_confidence_threshold then false
  else if 0 < get_position_value s recommendation.symbol then false
  else if check_portfolio_risk_limits s then true
  else false

/-- Model of `StrategyEngine.apply_sell_filters` (lines 274–290). -/
def apply_sell_filters (s : StratStore) (recommendation : RecDoc) : Bool :=
  if get_position_value s recommendation.symbol ≤ 0 then false else true

/-- Model of `StrategyEngine.generate_trade_signal` (lines 292–365).  The
free-text `reasoning` and the `expires_at = now + 24h` fields carry no
decision content and are not modelled. -/
def generate_trade_signal (s : StratStore) (recommendation : RecDoc) :
    Option SignalDoc :=
  match s.prices recommendation.symbol with
  | none => none
  | some current_price =>
    if current_price = 0 then none
    else
      match recommendation.recommendation with
      | RecommendationType.buy =>
        if apply_buy_filters s recommendation then
          let quantity := calculate_position_size s current_price
            recommendation.confidence_score
          some { symbol := recommendation.symbol,
                 signal_type := RecommendationType.buy,
                 quantity := |quantity|,
                 price_limit := some current_price,
                 stop_loss := some (calculate_stop_loss current_price
                   RecommendationType.buy),
                 take_profit := some (calculate_take_profit current_price
                   RecommendationType.buy),
                 confidence := recommendation.confidence_score }
        else none
      | RecommendationType.sell =>
        if apply_sell_filters s recommendation then
          match (s.active.filter (fun p => p.symbol = recommendation.symbol ∧
              p.status = PositionStatus.active)).head? with
          | none => none
          | some pos =>
            some { symbol := recommendation.symbol,
                   signal_type := RecommendationType.sell,
                   quantity := |pos.quantity|,
                   price_limit := some current_price,
                   stop_loss := some (calculate_stop_loss current_price
                     RecommendationType.sell),
                   take_profit := some (calculate_take_profit current_price
                     RecommendationType.sell),
                   confidence := recommendation.confidence_score }
        else none
      | RecommendationType.hold => none

/-- The loop body of `StrategyEngine.process_ml_recommendations`
(lines 377–401): iterate the window's recommendations most-recent first;
skip a recommendation whose symbol is in `processed_symbols`; otherwise
call `generate_trade_signal`, and only when a signal is produced record
the signal and add the symbol to `processed_symbols`.  Returns the
produced signals together with the recommendations that were actually
consumed (passed to `generate_trade_signal` rather than skipped). -/
def process_ml_loop (s : StratStore) :
    List RecDoc → List String → List SignalDoc × List RecDoc
  | [], _ => ([], [])
  | rec :: rest, processed_symbols =>
    if rec.symbol ∈ processed_symbols then
      process_ml_loop s rest processed_symbols
    else
      match generate_trade_signal s rec with
      | some signal =>
        let out := process_ml_loop s rest (rec.symbol :: processed_symbols)
        (signal :: out.1, rec :: out.2)
      | none =>
        let out := process_ml_loop s rest processed_symbols
        (out.1, rec :: out.2)

/-- Model of `StrategyEngine.process_ml_recommendations` (lines 367–412): the
window is iterated in `reversed(...)` order, so most recent first.
Persisting each signal to `se_trade_signals` does not feed back into
signal generation and is not part of the returned state. -/
def process_ml_recommendations (s : StratStore) :
    List SignalDoc × List RecDoc :=
  process_ml_loop s s.recs.reverse []

/-! ## Data-ingestion orchestrator
(`src/data-ingestion/orchestrator/main.py`) -/

/-- Model of the orchestrator enum `DataProvider`. -/
inductive DataProvider
  | alphavantage
  | finnhub
  | polygon
  | tiingo
deriving DecidableEq, Repr

/-- The `api_call_counts` dict: a missing key reads as 0, so the empty
dict is the all-zero record. -/
structure ApiCounts where
  alphavantage : ℕ := 0
  finnhub : ℕ := 0
  polygon : ℕ := 0
  tiingo : ℕ := 0
deriving DecidableEq, Repr

/-- Model of `self.api_call_counts.get(provider_key, 0)`. -/
def ApiCounts.get (c : ApiCounts) : DataProvider → ℕ
  | DataProvider.alphavantage => c.alphavantage
  | DataProvider.finnhub => c.finnhub
  | DataProvider.polygon => c.polygon
  | DataProvider.tiingo => c.tiingo

/-- Model of `self.api_call_counts[provider_key] = n`. -/
def ApiCounts.set (c : ApiCounts) (p : DataProvider) (n : ℕ) : ApiCounts :=
  match p with
  | DataProvider.alphavantage => { c with alphavantage := n }
  | DataProvider.finnhub => { c with finnhub := n }
  | DataProvider.polygon => { c with polygon := n }
  | DataProvider.tiingo => { c with tiingo := n }

/-- Model of `DAILY_LIMITS` (lines 121–126). -/
def DAILY_LIMITS : DataProvider → ℕ
  | DataProvider.alphavantage => 100
  | DataProvider.finnhub => 250
  | DataProvider.polygon => 100
  | DataProvider.tiingo => 500

/-- The mutable state of `OrchestrationEngine`: the per-provider call
counters and the `last_reset` instant (seconds; one day is 86400). -/
structure OrchState where
  api_call_counts : ApiCounts := {}
  last_reset : ℕ := 0
deriving DecidableEq, Repr

/-- Model of `OrchestrationEngine.reset_api_counters_if_needed` (lines 108–114):
`(now - last_reset).days >= 1` clears the whole dict and moves
`last_reset`.  `timedelta.days` is floor division by one day; a clock
running backwards gives negative days in Python and 0 under `ℕ`
subtraction — in both cases no reset. -/
def reset_api_counters_if_needed (st : OrchState) (now : ℕ) : OrchState :=
  if 1 ≤ (now - st.last_reset) / 86400 then
    { api_call_counts := {}, last_reset := now }
  else st

/-- Model of `OrchestrationEngine.can_make_api_call` (lines 116–132); the
`task_type` argument is unused by the source.  Returns the verdict and
the state as possibly mutated by the lazy reset. -/
def can_make_api_call (st : OrchState) (now : ℕ) (provider : DataProvider) :
    Bool × OrchState :=
  let st' := reset_api_counters_if_needed st now
  (if st'.api_call_counts.get provider < DAILY_LIMITS provider then true
   else false, st')

/-- Model of `OrchestrationEngine.increment_api_call_count` (lines 134–138). -/
def increment_api_call_count (st : OrchState) (provider : DataProvider) :
    OrchState :=
  let n := st.api_call_counts.get provider + 1
  { st with api_call_counts := st.api_call_counts.set provider n }

/-- Model of `OrchestrationEngine.call_service_endpoint` (lines 161–190).
`httpOk` is whether `http_client.post` together with
`raise_for_status()` succeeded (the ingest service acknowledges with
2xx whether or not provider data was ultimately returned); on any raise
the `except` branch returns `False` without incrementing.  Every
provider has a configured `SERVICE_URLS` entry, so the missing-URL
branch is dead code. -/
def call_service_endpoint (st : OrchState) (now : ℕ)
    (provider : DataProvider) (httpOk : Bool) : Bool × OrchState :=
  let r := can_make_api_call st now provider
  if r.1 then
    if httpOk then (true, increment_api_call_count r.2 provider)
    else (false, r.2)
  else (false, r.2)

/-! ## Concrete scenarios used by counterexamples and witnesses -/

/-- An active position of 5 shares of "A" at average cost 10. -/
def c2Pos : PositionDoc :=
  { id := ("A", 0), symbol := "A", quantity := 5, average_cost := 10,
    status := PositionStatus.active }

/-- Store holding only `c2Pos`. -/
def c2Store : Store :=
  { active := [c2Pos], history := [], transactions := [],
    prices := fun _ => none }

/-- A sell of 5 shares of "A" (equal to the position quantity). -/
def c2Tx : Transaction :=
  { symbol := "A", transaction_type := TransactionType.sell, quantity := 5,
    price := 12, executed_at := 9 }

/-- A sell of 2 shares of "A" (less than the position quantity). -/
def c9Tx : Transaction :=
  { symbol := "A", transaction_type := TransactionType.sell, quantity := 2,
    price := 12, executed_at := 9 }

/-- A trade signal carrying a price limit, for a symbol with no price
record anywhere in the store. -/
def c3Signal : SignalDoc :=
  { symbol := "A", signal_type := RecommendationType.buy, quantity := 5,
    price_limit := some 50 }

/-- An empty-portfolio store whose only price record is 100 for "A". -/
def c3PriceStore : Store :=
  { active := [], history := [], transactions := [],
    prices := fun sym => if sym = "A" then some 100 else none }

/-- A store whose only price record is 100 for "AAPL". -/
def c8Store : StratStore :=
  { recs := [], active := [],
    prices := fun sym => if sym = "AAPL" then some 100 else none }

/-- A buy recommendation for "AAPL" with confidence 85. -/
def c8Rec : RecDoc :=
  { symbol := "AAPL", recommendation := RecommendationType.buy,
    confidence_score := 85 }

/-- A buy recommendation for "A" with confidence 85 (older than `c4Hold`
in the `c4Store` window). -/
def c4Buy : RecDoc :=
  { symbol := "A", recommendation := RecommendationType.buy,
    confidence_score := 85 }

/-- A hold recommendation for "A" (the most recent one for "A"). -/
def c4Hold : RecDoc :=
  { symbol := "A", recommendation := RecommendationType.hold,
    confidence_score := 90 }

/-- Window containing, in ascending creation order, the older `c4Buy`
and the newer `c4Hold`; no positions; price 100 for "A". -/
def c4Store : StratStore :=
  { recs := [c4Buy, c4Hold], active := [],
    prices := fun sym => if sym = "A" then some 100 else none }

/-- An active position for "A" whose `market_value` field has never been
populated by a valuation pass. -/
def c5Pos : PositionDoc :=
  { id := ("A", 0), symbol := "A", quantity := 10, average_cost := 50,
    status := PositionStatus.active }

/-- Store with the valueless active position `c5Pos` and price 100. -/
def c5Store : StratStore :=
  { recs := [], active := [c5Pos],
    prices := fun sym => if sym = "A" then some 100 else none }

/-- A buy recommendation for "A" with confidence 85, a symbol that
already has the active position `c5Pos`. -/
def c5Rec : RecDoc :=
  { symbol := "A", recommendation := RecommendationType.buy,
    confidence_score := 85 }

/-- One active share of "A" at average cost 1/20. -/
def c10Pos : PositionDoc :=
  { id := ("A", 0), symbol := "A", quantity := 1, average_cost := mkRat 1 20,
    status := PositionStatus.active }

/-- Store holding `c10Pos`, with close price 0.10000000000000001 for
"A" — a 17-digit decimal that does not survive the binary64 round-trip. -/
def c10Store : Store :=
  { active := [c10Pos], history := [], transactions := [],
    prices := fun sym =>
      if sym = "A" then some (10000000000000001 / 10 ^ 17) else none }

/-- Orchestrator state with the polygon counter at its quota. -/
def c6State : OrchState :=
  { api_call_counts := { polygon := 100 }, last_reset := 0 }

/-! ## Sanity checks of the numeric model

Each of these anchors a value of the Python arithmetic model to the
value CPython computes for the source expression. -/

-- Decimal(5)/Decimal(3) = 1.666666666666666666666666667
example : decDiv 5 3 = 1666666666666666666666666667 / 10 ^ 27 := by decide
-- float(Decimal(5)/Decimal(3)) reads back as 1.6666666666666667
example : reprFloat (decDiv 5 3) = 16666666666666667 / 10 ^ 16 := by decide
-- str(0.08) == "0.08" and str(0.15) == "0.15"
example : pyRepr (pyFloat (8 / 100)) = 8 / 100 := by decide
example : pyRepr (pyFloat (15 / 100)) = 15 / 100 := by decide
-- 85/1000 rounds to the binary64 6124895493223875/2^56
example : pyFloat (85 / 1000) = 6124895493223875 / 2 ^ 56 := by decide
-- 85/100 rounds to the binary64 7656119366529843/2^53
example : pyFloat (85 / 100) = 7656119366529843 / 2 ^ 53 := by decide
-- 0.085 * 0.85 in binary64 reads back as 0.07225000000000001
example :
    pyRepr (pyFloat (pyFloat (85 / 1000) * pyFloat (85 / 100))) =
      7225000000000001 / 10 ^ 17 := by decide
-- float(Decimal("0.10000000000000001")) reads back as 0.1
example : reprFloat (10000000000000001 / 10 ^ 17) = 1 / 10 := by decide
-- The second buy of the C1 scenario blends into the position created by
-- the first: the stored average cost is the float round-trip of 5/3.
example :
    (getById c1Store.active ("A", 0)).map (fun p => p.average_cost) =
      some (16666666666666667 / 10 ^ 16) := by decide
example :
    (getById c1Store.active ("A", 0)).map (fun p => p.quantity) = some 3 := by
  decide

/-! ## Store lemmas -/

theorem mem_of_head?_filter {l : List PositionDoc} {p : PositionDoc}
    {f : PositionDoc → Bool} (h : (l.filter f).head? = some p) :
    p ∈ l ∧ f p = true := by
  have hmem : p ∈ l.filter f := by
    cases hf : l.filter f with
    | nil => rw [hf] at h; exact absurd h (by simp)
    | cons a t => rw [hf] at h; simp at h; simp [hf, h]
  exact List.mem_filter.mp hmem

theorem filter_deleteById (l : List PositionDoc) (i : DocId) :
    (deleteById l i).filter (fun x => x.id = i) = [] := by
  induction l with
  | nil => rfl
  | cons a t ih =>
    by_cases ha : a.id = i <;> simp [deleteById, List.filter] at ih ⊢ <;>
      simp [ha, ih]

theorem any_eq_false_of_forall_ne {l : List PositionDoc} {i : DocId}
    (h : ∀ x ∈ l, x.id ≠ i) : l.any (fun x => x.id = i) = false := by
  simp only [List.any_eq_false, decide_eq_true_eq]
  exact h

theorem filter_upsertById_not_mem {l : List PositionDoc} {i : DocId}
    {d : PositionDoc} (hd : d.id = i) (h : ∀ x ∈ l, x.id ≠ i) :
    (upsertById l i d).filter (fun x => x.id = i) = [d] := by
  have hany := any_eq_false_of_forall_ne h
  have hfl : l.filter (fun x => x.id = i) = [] := by
    simp only [List.filter_eq_nil_iff, decide_eq_true_eq]
    exact h
  simp [upsertById, hany, List.filter_append, hfl, hd]

theorem getById_eq_some_of_mem_nodup {l : List PositionDoc}
    {p : PositionDoc} (hnd : (l.map (fun x => x.id)).Nodup) (hp : p ∈ l) :
    getById l p.id = some p := by
  induction l with
  | nil => exact absurd hp (by simp)
  | cons a t ih =>
    simp only [List.map_cons, List.nodup_cons] at hnd
    rcases List.mem_cons.mp hp with rfl | hpt
    · simp [getById, List.find?]
    · have hne : a.id ≠ p.id := by
        intro he
        exact hnd.1 (he ▸ List.mem_map_of_mem (fun x => x.id) hpt)
      have := ih hnd.2 hpt
      simp only [getById, List.find?] at this ⊢
      simp [hne, this]

theorem mem_upsertById_self {l : List PositionDoc} {i : DocId}
    {d : PositionDoc} : d ∈ upsertById l i d := by
  unfold upsertById
  by_cases hany : l.any (fun x => x.id = i) = true
  · rw [if_pos hany]
    obtain ⟨x, hx, hxi⟩ := List.any_eq_true.mp hany
    have hxi' : x.id = i := of_decide_eq_true hxi
    unfold replaceById
    have hmm := List.mem_map_of_mem (fun y => if y.id = i then d else y) hx
    simp only [hxi', eq_self_iff_true, if_true] at hmm
    exact hmm
  · rw [if_neg hany]
    exact List.mem_append_right l (by simp)

/-! ## C2: a sell of the full position quantity closes the position -/

/-- Claim C2: For a sell transaction whose quantity is at least the active
position's quantity, `update_positions` flips the position to closed with
`closed_at` the transaction's execution time and quantity 0, leaves
exactly one record for the position in the history partition, and zero
records for it in the active partition. -/
theorem C2_full_close (s : Store) (tx : Transaction) (pos : PositionDoc)
    (now : ℕ)
    (hsell : tx.transaction_type = TransactionType.sell)
    (hpos : (s.active.filter (fun p => p.symbol = tx.symbol ∧
      p.status = PositionStatus.active)).head? = some pos)
    (hq : pos.quantity ≤ tx.quantity)
    (hhist : ∀ x ∈ s.history, x.id ≠ pos.id) :
    (update_positions s tx now).history.filter (fun x => x.id = pos.id) =
      [{ pos with status := PositionStatus.closed,
                  closed_at := some tx.executed_at, quantity := 0 }] ∧
    (update_positions s tx now).active.filter (fun x => x.id = pos.id) =
      [] := by
  obtain ⟨sym, ttype, qty, price, total, fees, ex⟩ := tx
  dsimp only at hsell hpos hq
  subst hsell
  unfold update_positions
  dsimp only
  rw [hpos]
  dsimp only
  rw [if_pos hq]
  exact ⟨filter_upsertById_not_mem rfl hhist,
    filter_deleteById s.active pos.id⟩

/-- Claim C2 witness: selling all 5 shares of `c2Pos` moves the closed
record to history and clears it from the active partition. -/
theorem C2_full_close_witness :
    (update_positions c2Store c2Tx 9).history.filter
        (fun x => x.id = c2Pos.id) =
      [{ c2Pos with status := PositionStatus.closed,
                    closed_at := some c2Tx.executed_at, quantity := 0 }] ∧
    (update_positions c2Store c2Tx 9).active.filter
        (fun x => x.id = c2Pos.id) = [] :=
  C2_full_close c2Store c2Tx c2Pos 9 rfl (by decide) (by decide) (by decide)

/-! ## C9: a partial sell decrements quantity in place -/

/-- Claim C9: For a sell transaction of strictly less than the active
position's quantity, `update_positions` leaves the history partition
untouched, keeps an active record with the same id whose quantity is
decremented by exactly the sold amount, whose average cost is unchanged
and whose status is still active, and leaves every other active record
in place. -/
theorem C9_partial_sell (s : Store) (tx : Transaction) (pos : PositionDoc)
    (now : ℕ)
    (hsell : tx.transaction_type = TransactionType.sell)
    (hpos : (s.active.filter (fun p => p.symbol = tx.symbol ∧
      p.status = PositionStatus.active)).head? = some pos)
    (hq : tx.quantity < pos.quantity) :
    (update_positions s tx now).history = s.history ∧
    (∃ q ∈ (update_positions s tx now).active,
      q.id = pos.id ∧ q.quantity = pos.quantity - tx.quantity ∧
      q.average_cost = pos.average_cost ∧
      q.status = PositionStatus.active) ∧
    (∀ q ∈ s.active, q.id ≠ pos.id →
      q ∈ (update_positions s tx now).active) := by
  obtain ⟨hmem, hfilt⟩ := mem_of_head?_filter hpos
  have hstatus : pos.status = PositionStatus.active :=
    (of_decide_eq_true hfilt).2
  obtain ⟨sym, ttype, qty, price, total, fees, ex⟩ := tx
  dsimp only at hsell hpos hq
  subst hsell
  unfold update_positions
  dsimp only
  rw [hpos]
  dsimp only
  rw [if_neg (by omega)]
  refine ⟨rfl, ?_, ?_⟩
  · refine ⟨{ pos with quantity := pos.quantity - qty, updated_at := now },
      ?_, rfl, rfl, rfl, hstatus⟩
    have := List.mem_map_of_mem
      (fun x => if x.id = pos.id then
        { pos with quantity := pos.quantity - qty, updated_at := now }
        else x) hmem
    simpa [replaceById] using this
  · intro q hqmem hqne
    have := List.mem_map_of_mem
      (fun x => if x.id = pos.id then
        { pos with quantity := pos.quantity - qty, updated_at := now }
        else x) hqmem
    simpa [replaceById, hqne] using this

/-- Claim C9 witness: selling 2 of the 5 shares of `c2Pos` leaves an
active position of 3 shares at the same average cost. -/
theorem C9_partial_sell_witness :
    (update_positions c2Store c9Tx 9).history = c2Store.history ∧
    (∃ q ∈ (update_positions c2Store c9Tx 9).active,
      q.id = c2Pos.id ∧ q.quantity = c2Pos.quantity - c9Tx.quantity ∧
      q.average_cost = c2Pos.average_cost ∧
      q.status = PositionStatus.active) ∧
    (∀ q ∈ c2Store.active, q.id ≠ c2Pos.id →
      q ∈ (update_positions c2Store c9Tx 9).active) :=
  C9_partial_sell c2Store c9Tx c2Pos 9 rfl (by decide) (by decide)

/-! ## C1: average cost of a buy sequence -/

/-- Claim C1 counterexample: after the buys (q₁,p₁) = (1,1) and
(q₂,p₂) = (2,2) the claim asserts an average cost of exactly
Σqᵢpᵢ/Σqᵢ = (1·1 + 2·2)/(1 + 2) = 5/3, but the stored average cost is
the float round-trip of Decimal(5)/Decimal(3), namely
1.6666666666666667 ≠ 5/3. -/
theorem C1_counterexample :
    ¬ ((getById c1Store.active ("A", 0)).map (fun p => p.average_cost) =
      some ((1 * 1 + 2 * 2 : ℚ) / (1 + 2))) := by decide

/-- Claim C1 (amended): the stored average cost is the stepwise blend with
28-significant-digit decimal division and a binary-float round-trip at
each buy into an existing position; it equals Σqᵢpᵢ/Σqᵢ exactly for the
buy that opens the position, whose average cost is the execution price
itself. -/
theorem C1_new_position_exact (s : Store) (tx : Transaction) (now : ℕ)
    (hbuy : tx.transaction_type = TransactionType.buy)
    (hnone : s.active.filter (fun p => p.symbol = tx.symbol ∧
      p.status = PositionStatus.active) = [])
    (hq : (tx.quantity : ℚ) ≠ 0) :
    ∃ p ∈ (update_positions s tx now).active,
      p.symbol = tx.symbol ∧ p.quantity = tx.quantity ∧
      p.average_cost = tx.price ∧
      p.average_cost = ((tx.quantity : ℚ) * tx.price) / (tx.quantity : ℚ) := by
  obtain ⟨sym, ttype, qty, price, total, fees, ex⟩ := tx
  try dsimp only at hbuy hnone hq
  subst hbuy
  unfold update_positions
  dsimp only
  rw [hnone]
  exact ⟨_, mem_upsertById_self, rfl, rfl, rfl,
    (mul_div_cancel_left₀ price hq).symm⟩

/-- Claim C1 witness: a single buy of 3 shares at price 7 opens a position
with average cost exactly 7 = (3·7)/3. -/
theorem C1_new_position_exact_witness :
    ∃ p ∈ (update_positions emptyStore (buyTx 3 7 0) 0).active,
      p.symbol = (buyTx 3 7 0).symbol ∧ p.quantity = (buyTx 3 7 0).quantity ∧
      p.average_cost = (buyTx 3 7 0).price ∧
      p.average_cost = (((buyTx 3 7 0).quantity : ℚ) * (buyTx 3 7 0).price) /
        ((buyTx 3 7 0).quantity : ℚ) :=
  C1_new_position_exact emptyStore (buyTx 3 7 0) 0 rfl (by decide)
    (by norm_num [buyTx])

/-! ## C3: execution-price resolution in `execute_trade` -/

theorem update_positions_transactions (s : Store) (tx : Transaction)
    (now : ℕ) :
    (update_positions s tx now).transactions = s.transactions := by
  unfold update_positions
  dsimp only
  split <;> split <;> first | rfl | (split <;> rfl)

/-- Claim C3 counterexample: the claim asserts that a signal carrying a
price limit executes even when no market price record exists, but
`execute_trade` resolves the current price first and aborts with no
transaction when it is missing. -/
theorem C3_counterexample :
    c3Signal.price_limit = some 50 ∧
    (execute_trade emptyStore c3Signal 0).1 = none := by decide

/-- Claim C3 (amended): `execute_trade` returns no transaction exactly
when the current market price fails to resolve (missing, or a falsy
zero close); when it resolves and is nonzero, a transaction is recorded
whose execution price is the signal's price limit if present and the
market price otherwise. -/
theorem C3_price_resolution (s : Store) (signal : SignalDoc) (now : ℕ) :
    ((execute_trade s signal now).1 = none ↔
      s.prices signal.symbol = none ∨ s.prices signal.symbol = some 0) ∧
    (∀ cp, s.prices signal.symbol = some cp → cp ≠ 0 →
      ∃ tx, (execute_trade s signal now).1 = some tx ∧
        tx.price = signal.price_limit.getD cp ∧
        tx.total_amount = decMul tx.price (signal.quantity : ℚ) ∧
        tx.fees = decMul tx.total_amount (mkRat 1 1000) ∧
        (execute_trade s signal now).2.transactions =
          s.transactions ++ [tx]) := by
  unfold execute_trade get_current_price
  cases hp : s.prices signal.symbol with
  | none =>
    dsimp only
    refine ⟨by simp, ?_⟩
    intro cp hcp
    exact absurd hcp (by simp)
  | some cp =>
    dsimp only
    by_cases hz : cp = 0
    · subst hz
      rw [if_pos rfl]
      refine ⟨by simp, ?_⟩
      intro cp' hcp' hz'
      rw [Option.some_inj] at hcp'
      exact absurd hcp'.symm hz'
    · rw [if_neg hz]
      dsimp only
      constructor
      · simp [hz]
      · intro cp' hcp' h0
        rw [Option.some_inj] at hcp'
        subst hcp'
        exact ⟨_, rfl, rfl, rfl, rfl, update_positions_transactions _ _ _⟩

/-- Claim C3 witness: with market price 100 for "A" and price limit 50,
the recorded transaction executes at the limit price 50. -/
theorem C3_price_resolution_witness :
    ∃ tx, (execute_trade c3PriceStore c3Signal 0).1 = some tx ∧
      tx.price = c3Signal.price_limit.getD 100 ∧
      tx.total_amount = decMul tx.price (c3Signal.quantity : ℚ) ∧
      tx.fees = decMul tx.total_amount (mkRat 1 1000) ∧
      (execute_trade c3PriceStore c3Signal 0).2.transactions =
        c3PriceStore.transactions ++ [tx] :=
  (C3_price_resolution c3PriceStore c3Signal 0).2 100 (by decide) (by norm_num)

/-! ## C4: per-symbol deduplication in `process_ml_recommendations` -/

theorem generate_trade_signal_symbol {s : StratStore} {rec : RecDoc}
    {sig : SignalDoc} (h : generate_trade_signal s rec = some sig) :
    sig.symbol = rec.symbol := by
  unfold generate_trade_signal at h
  cases hp : s.prices rec.symbol <;> rw [hp] at h
  · exact absurd h (by simp)
  · dsimp only at h
    split at h
    · exact absurd h (by simp)
    · cases hr : rec.recommendation <;> rw [hr] at h <;> dsimp only at h
      · split at h
        · rw [Option.some_inj] at h
          subst h
          rfl
        · exact absurd h (by simp)
      · exact absurd h (by simp)
      · split at h
        · split at h
          · exact absurd h (by simp)
          · rw [Option.some_inj] at h
            subst h
            rfl
        · exact absurd h (by simp)

theorem process_ml_loop_symbols (s : StratStore) (l : List RecDoc) :
    ∀ ps : List String,
      ((process_ml_loop s l ps).1.map (fun sig => sig.symbol)).Nodup ∧
      ∀ sym ∈ (process_ml_loop s l ps).1.map (fun sig => sig.symbol),
        sym ∉ ps := by
  induction l with
  | nil => intro ps; simp [process_ml_loop]
  | cons rec rest ih =>
    intro ps
    unfold process_ml_loop
    by_cases hmem : rec.symbol ∈ ps
    · rw [if_pos hmem]
      exact ih ps
    · rw [if_neg hmem]
      cases hgen : generate_trade_signal s rec with
      | none => exact ih ps
      | some sig =>
        have hsym : sig.symbol = rec.symbol := generate_trade_signal_symbol hgen
        obtain ⟨ih1, ih2⟩ := ih (rec.symbol :: ps)
        dsimp only
        constructor
        · rw [List.map_cons, List.nodup_cons]
          refine ⟨?_, ih1⟩
          intro hin
          exact (ih2 sig.symbol hin) (by rw [hsym]; exact List.mem_cons_self _ _)
        · intro sym hin
          rw [List.map_cons] at hin
          rcases List.mem_cons.mp hin with rfl | htail
          · rw [hsym]; exact hmem
          · intro hps
            exact (ih2 sym htail) (List.mem_cons_of_mem _ hps)

/-- Claim C4 (amended): in one run of `process_ml_recommendations` at most
one trade signal is produced per symbol — the emitted signals carry
pairwise-distinct symbols — because a symbol enters `processed_symbols`
when a signal is produced for it; but a recommendation that yields no
signal does not mark its symbol processed, so older recommendations for
the same symbol can still be consumed in the same run. -/
theorem C4_at_most_one_signal_per_symbol (s : StratStore) :
    ((process_ml_recommendations s).1.map (fun sig => sig.symbol)).Nodup :=
  (process_ml_loop_symbols s s.recs.reverse []).1

/-- Claim C4 counterexample: the window `c4Store` holds an older buy and a
newer hold for "A".  The hold is consumed first and yields no signal, so
"A" is not marked processed and the older buy is consumed as well — two
recommendations for one symbol in one run, and the produced signal stems
from the older one, contradicting the claim that every older
recommendation is skipped once one for its symbol has been encountered. -/
theorem C4_counterexample :
    (process_ml_recommendations c4Store).2 = [c4Hold, c4Buy] ∧
    ¬ (((process_ml_recommendations c4Store).2.filter
        (fun r => r.symbol = "A")).length ≤ 1) ∧
    (process_ml_recommendations c4Store).1.map (fun sig => sig.quantity) =
      [7] := by
  refine ⟨?_, ?_, ?_⟩ <;> decide

/-! ## C5: the existing-position filter for buy recommendations -/

/-- Claim C5 (amended): `apply_buy_filters` passes a buy recommendation iff
the confidence reaches the 80-point threshold, the symbol's active
position *market value* (0 when the field was never populated) is not
positive, and fewer than 20 active positions exist.  An active position
whose `market_value` field is unset therefore does not block a new buy
signal for its symbol. -/
theorem C5_buy_filter_characterization (s : StratStore) (rec : RecDoc) :
    apply_buy_filters s rec = true ↔
      (min_confidence_threshold ≤ rec.confidence_score ∧
       get_position_value s rec.symbol ≤ 0 ∧
       (s.active.filter
         (fun p => p.status = PositionStatus.active)).length < 20) := by
  unfold apply_buy_filters check_portfolio_risk_limits
  by_cases h1 : rec.confidence_score < min_confidence_threshold
  · rw [if_pos h1]
    exact iff_of_false (by simp)
      (fun h => absurd h1 (not_lt.mpr h.1))
  · rw [if_neg h1]
    by_cases h2 : 0 < get_position_value s rec.symbol
    · rw [if_pos h2]
      exact iff_of_false (by simp)
        (fun h => absurd h2 (not_lt.mpr h.2.1))
    · rw [if_neg h2]
      by_cases h3 : 20 ≤ (s.active.filter
          (fun p => p.status = PositionStatus.active)).length
      · rw [if_pos h3]
        exact iff_of_false (by simp)
          (fun h => absurd h3 (not_le.mpr h.2.2))
      · rw [if_neg h3]
        exact iff_of_true rfl ⟨not_lt.mp h1, not_lt.mp h2, not_le.mp h3⟩

/-- Claim C5 witness: with no position at all for "AAPL", confidence 85
and an empty portfolio, the buy filters pass. -/
theorem C5_buy_filter_characterization_witness :
    apply_buy_filters c8Store c8Rec = true :=
  (C5_buy_filter_characterization c8Store c8Rec).mpr
    ⟨by norm_num [c8Rec, min_confidence_threshold], by decide, by decide⟩

/-- Claim C5 counterexample: `c5Store` has an active position for "A"
whose `market_value` was never populated; the claim says a buy
recommendation for "A" can then never yield a signal, yet
`generate_trade_signal` produces one. -/
theorem C5_counterexample :
    (∃ p ∈ c5Store.active, p.symbol = c5Rec.symbol ∧
      p.status = PositionStatus.active) ∧
    generate_trade_signal c5Store c5Rec ≠ none := by
  refine ⟨?_, ?_⟩ <;> decide

/-! ## C6: the API budget check -/

theorem ApiCounts.get_empty (p : DataProvider) : ({} : ApiCounts).get p = 0 := by
  cases p <;> rfl

theorem ApiCounts.get_set_self (c : ApiCounts) (p : DataProvider) (n : ℕ) :
    (c.set p n).get p = n := by
  cases p <;> rfl

/-- Claim C6: Within the current window (less than one day since the last
reset), `can_make_api_call` answers false as soon as the recorded count
for the provider has reached its quota; once at least one day has
elapsed, the call lazily clears every counter and answers true for every
provider.  The four quotas are 100/250/100/500. -/
theorem C6_budget_check (st : OrchState) (now : ℕ) (p : DataProvider) :
    ((now - st.last_reset) / 86400 < 1 →
      DAILY_LIMITS p ≤ st.api_call_counts.get p →
      (can_make_api_call st now p).1 = false) ∧
    (1 ≤ (now - st.last_reset) / 86400 →
      (can_make_api_call st now p).1 = true ∧
      (can_make_api_call st now p).2.api_call_counts = {}) ∧
    (st.api_call_counts = {} → (can_make_api_call st now p).1 = true) ∧
    DAILY_LIMITS DataProvider.alphavantage = 100 ∧
    DAILY_LIMITS DataProvider.finnhub = 250 ∧
    DAILY_LIMITS DataProvider.polygon = 100 ∧
    DAILY_LIMITS DataProvider.tiingo = 500 := by
  have hempty : (if ({} : ApiCounts).get p < DAILY_LIMITS p then true
      else false) = true := by
    rw [ApiCounts.get_empty]
    rw [if_pos ?_]
    cases p <;> decide
  refine ⟨?_, ?_, ?_, rfl, rfl, rfl, rfl⟩
  · intro hlt hge
    unfold can_make_api_call reset_api_counters_if_needed
    rw [if_neg (by omega)]
    dsimp only
    rw [if_neg (not_lt.mpr hge)]
  · intro hge
    unfold can_make_api_call reset_api_counters_if_needed
    rw [if_pos hge]
    exact ⟨hempty, rfl⟩
  · intro hzero
    unfold can_make_api_call reset_api_counters_if_needed
    by_cases hday : 1 ≤ (now - st.last_reset) / 86400
    · rw [if_pos hday]
      exact hempty
    · rw [if_neg hday]
      dsimp only
      rw [hzero]
      exact hempty

/-- Claim C6 witness: polygon at its quota of 100 is denied within the
window; one day later the same state is granted again. -/
theorem C6_budget_check_witness :
    (can_make_api_call c6State 0 DataProvider.polygon).1 = false ∧
    (can_make_api_call c6State 86400 DataProvider.polygon).1 = true :=
  ⟨(C6_budget_check c6State 0 DataProvider.polygon).1 (by decide) (by decide),
   ((C6_budget_check c6State 86400 DataProvider.polygon).2.1 (by decide)).1⟩

/-! ## C7: quota accounting of `call_service_endpoint` -/

/-- Claim C7 counterexample: a fresh state passes the budget check, yet a
failed outbound request (`httpOk = false`) leaves the finnhub counter at
0 instead of incrementing it — the call did *not* count against quota. -/
theorem C7_counterexample :
    (can_make_api_call {} 0 DataProvider.finnhub).1 = true ∧
    ¬ ((call_service_endpoint {} 0 DataProvider.finnhub
        false).2.api_call_counts.get DataProvider.finnhub =
      ({} : OrchState).api_call_counts.get DataProvider.finnhub + 1) := by
  refine ⟨?_, ?_⟩ <;> decide

/-- Claim C7 (amended): when the budget check passes, the provider's
counter is incremented exactly when the HTTP POST to the ingest service
succeeds; a failed outbound request returns false and does not count
against quota (while a successful acknowledgement counts whether or not
provider data was ultimately returned — the model's `httpOk` covers
both). -/
theorem C7_increment_on_success (st : OrchState) (now : ℕ)
    (p : DataProvider) (httpOk : Bool)
    (hok : (can_make_api_call st now p).1 = true) :
    (call_service_endpoint st now p httpOk).2.api_call_counts.get p =
      (reset_api_counters_if_needed st now).api_call_counts.get p +
        (if httpOk then 1 else 0) ∧
    (call_service_endpoint st now p httpOk).1 = httpOk := by
  unfold call_service_endpoint
  unfold can_make_api_call at hok ⊢
  dsimp only at hok ⊢
  rw [hok]
  cases httpOk
  · simp
  · rw [if_pos rfl, if_pos rfl]
    constructor
    · show (increment_api_call_count _ p).api_call_counts.get p = _
      unfold increment_api_call_count
      dsimp only
      rw [ApiCounts.get_set_self]
      simp
    · rfl

/-- Claim C7 witness: from the empty state a successful call to tiingo is
counted once. -/
theorem C7_increment_on_success_witness :
    (call_service_endpoint {} 0 DataProvider.tiingo
      true).2.api_call_counts.get DataProvider.tiingo = 1 := by
  have h := C7_increment_on_success {} 0 DataProvider.tiingo true (by decide)
  simpa using h.1

/-! ## C8: the sizing round-trip at confidence 85 and price 100 -/

/-- Claim C8: On an empty portfolio (valued at the 10,000 default) with
close price 100 for "AAPL", a buy recommendation with confidence 85
yields a signal of 7 shares — the floor of
10000 · min(0.10, 0.085) · 0.85 / 100 = 7.225 computed in Python floats
and Decimals — with stop-loss 92.00 and take-profit 115.00. -/
theorem C8_sizing_roundtrip :
    (generate_trade_signal c8Store c8Rec).map
        (fun sig => (sig.quantity, sig.stop_loss, sig.take_profit)) =
      some (7, some 92, some 115) ∧
    ((7 : ℚ) ≤ 10000 * min (10 / 100 : ℚ) (85 / 1000) * (85 / 100) / 100 ∧
      10000 * min (10 / 100 : ℚ) (85 / 1000) * (85 / 100) / 100 < 8) := by
  constructor
  · decide
  · constructor <;> norm_num

/-! ## C10: the valuation pass `update_position_values` -/

theorem getById_cons (a : PositionDoc) (t : List PositionDoc) (j : DocId) :
    getById (a :: t) j = if a.id = j then some a else getById t j := by
  unfold getById
  by_cases h : a.id = j
  · rw [if_pos h, List.find?_cons_of_pos]
    simp [h]
  · rw [if_neg h, List.find?_cons_of_neg]
    simp [h]

theorem replaceById_cons (a : PositionDoc) (t : List PositionDoc)
    (i : DocId) (d : PositionDoc) :
    replaceById (a :: t) i d = (if a.id = i then d else a) :: replaceById t i d :=
  rfl

theorem getById_replaceById_ne (d : PositionDoc) {i j : DocId}
    (hd : d.id = i) (hj : j ≠ i) :
    ∀ l, getById (replaceById l i d) j = getById l j := by
  intro l
  induction l with
  | nil => rfl
  | cons a t ih =>
    rw [replaceById_cons, getById_cons, getById_cons]
    by_cases ha : a.id = i
    · rw [if_pos ha]
      have h1 : d.id ≠ j := by rw [hd]; exact Ne.symm hj
      have h2 : a.id ≠ j := by rw [ha]; exact Ne.symm hj
      rw [if_neg h1, if_neg h2, ih]
    · rw [if_neg ha]
      by_cases haj : a.id = j
      · rw [if_pos haj, if_pos haj]
      · rw [if_neg haj, if_neg haj, ih]

theorem getById_replaceById_self (d : PositionDoc) {i : DocId}
    (hd : d.id = i) :
    ∀ l, (getById l i).isSome → getById (replaceById l i d) i = some d := by
  intro l
  induction l with
  | nil => intro h; exact absurd h (by simp [getById])
  | cons a t ih =>
    intro h
    rw [replaceById_cons, getById_cons]
    by_cases ha : a.id = i
    · rw [if_pos ha, if_pos hd]
    · rw [if_neg ha, if_neg ha]
      rw [getById_cons, if_neg ha] at h
      exact ih h

theorem isSome_getById_replaceById (d : PositionDoc) {i : DocId}
    (hd : d.id = i) :
    ∀ l j, (getById (replaceById l i d) j).isSome =
      (getById l j).isSome := by
  intro l j
  induction l with
  | nil => rfl
  | cons a t ih =>
    rw [replaceById_cons, getById_cons, getById_cons]
    by_cases ha : a.id = i
    · rw [if_pos ha]
      by_cases haj : a.id = j
      · have hdj : d.id = j := by rw [hd, ← ha]; exact haj
        rw [if_pos haj, if_pos hdj]
        rfl
      · have hdj : d.id ≠ j := by rw [hd, ← ha]; exact haj
        rw [if_neg haj, if_neg hdj, ih]
    · rw [if_neg ha]
      by_cases haj : a.id = j
      · rw [if_pos haj, if_pos haj]
      · rw [if_neg haj, if_neg haj, ih]

theorem getById_foldl_ne (s : Store) (now : ℕ) :
    ∀ (l acc : List PositionDoc) (i : DocId),
      (∀ x ∈ l, x.id ≠ i) →
      getById (l.foldl (upv_step s now) acc) i = getById acc i := by
  intro l
  induction l with
  | nil => intro acc i _; rfl
  | cons a t ih =>
    intro acc i h
    rw [List.foldl_cons]
    have ha : a.id ≠ i := h a (List.mem_cons_self a t)
    have ht : ∀ x ∈ t, x.id ≠ i := fun x hx => h x (List.mem_cons_of_mem a hx)
    rw [ih _ _ ht]
    unfold upv_step
    cases hcp : get_current_price s a.symbol with
    | none => rfl
    | some cp =>
      dsimp only
      by_cases hz : cp = 0
      · rw [if_pos hz]
      · rw [if_neg hz]
        exact getById_replaceById_ne (upv_update cp now a) rfl (Ne.symm ha) _

theorem getById_foldl_skip (s : Store) (now : ℕ) :
    ∀ (l acc : List PositionDoc) (i : DocId),
      (∀ x ∈ l, x.id = i →
        get_current_price s x.symbol = none ∨
        get_current_price s x.symbol = some 0) →
      getById (l.foldl (upv_step s now) acc) i = getById acc i := by
  intro l
  induction l with
  | nil => intro acc i _; rfl
  | cons a t ih =>
    intro acc i h
    rw [List.foldl_cons,
      ih _ _ (fun x hx => h x (List.mem_cons_of_mem a hx))]
    unfold upv_step
    cases hcp : get_current_price s a.symbol with
    | none => rfl
    | some cp =>
      dsimp only
      by_cases hz : cp = 0
      · rw [if_pos hz]
      · rw [if_neg hz]
        by_cases hai : a.id = i
        · exfalso
          rcases h a (List.mem_cons_self a t) hai with h' | h'
          · rw [hcp] at h'; exact Option.noConfusion h'
          · rw [hcp] at h'; exact hz (Option.some_inj.mp h')
        · exact getById_replaceById_ne (upv_update cp now a) rfl
            (Ne.symm hai) _

theorem getById_foldl_update (s : Store) (now : ℕ) :
    ∀ (l acc : List PositionDoc) (pos : PositionDoc) (cp : ℚ),
      (l.map (fun x => x.id)).Nodup → pos ∈ l →
      (getById acc pos.id).isSome →
      get_current_price s pos.symbol = some cp → cp ≠ 0 →
      getById (l.foldl (upv_step s now) acc) pos.id =
        some (upv_update cp now pos) := by
  intro l
  induction l with
  | nil => intro acc pos cp _ h; exact absurd h (by simp)
  | cons a t ih =>
    intro acc pos cp hnd hmem hsome hcp hz
    rw [List.map_cons, List.nodup_cons] at hnd
    rw [List.foldl_cons]
    rcases List.mem_cons.mp hmem with rfl | hmt
    · have hstep : getById (upv_step s now acc pos) pos.id =
          some (upv_update cp now pos) := by
        unfold upv_step
        rw [hcp]
        dsimp only
        rw [if_neg hz]
        exact getById_replaceById_self (upv_update cp now pos) rfl _ hsome
      have ht : ∀ x ∈ t, x.id ≠ pos.id := by
        intro x hx he
        exact hnd.1 (he ▸ List.mem_map_of_mem (fun y => y.id) hx)
      rw [getById_foldl_ne s now t _ _ ht, hstep]
    · have hsome' : (getById (upv_step s now acc a) pos.id).isSome := by
        unfold upv_step
        cases hcpa : get_current_price s a.symbol with
        | none => exact hsome
        | some cpa =>
          dsimp only
          by_cases hza : cpa = 0
          · rw [if_pos hza]; exact hsome
          · rw [if_neg hza]
            exact (isSome_getById_replaceById (upv_update cpa now a) rfl
              acc pos.id).trans hsome
      exact ih _ pos cp hnd.2 hmt hsome' hcp hz

theorem eq_of_id_eq_of_mem_nodup {l : List PositionDoc}
    {x y : PositionDoc} (hnd : (l.map (fun d => d.id)).Nodup)
    (hx : x ∈ l) (hy : y ∈ l) (h : x.id = y.id) : x = y := by
  have h1 := getById_eq_some_of_mem_nodup hnd hx
  have h2 := getById_eq_some_of_mem_nodup hnd hy
  rw [h] at h1
  rw [h1] at h2
  exact Option.some_inj.mp h2

/-- Claim C10 (amended): for every active position whose close price
resolves to a nonzero value, `update_position_values` rewrites exactly
the fields `current_price`, `market_value`, `unrealized_pnl` and
`updated_at` — with `market_value` the binary64-stored Decimal product
price × quantity and `unrealized_pnl` the stored
(price − average cost) × quantity — leaving symbol, quantity, average
cost, status, opened-at and closed-at unchanged; a position whose price
is missing (or the falsy zero) is left entirely unchanged, and the
history partition and transaction log are untouched. -/
theorem C10_value_refresh_frame (s : Store) (now : ℕ) (pos : PositionDoc)
    (hnd : (s.active.map (fun x => x.id)).Nodup) (hmem : pos ∈ s.active) :
    (∀ cp, pos.status = PositionStatus.active →
      s.prices pos.symbol = some cp → cp ≠ 0 →
      ∃ u, getById (update_position_values s now).active pos.id = some u ∧
        u.current_price = some (reprFloat cp) ∧
        u.market_value = some (reprFloat (decMul cp (pos.quantity : ℚ))) ∧
        u.unrealized_pnl = some (reprFloat (decMul
          (decSub cp pos.average_cost) (pos.quantity : ℚ))) ∧
        u.updated_at = now ∧ u.symbol = pos.symbol ∧
        u.quantity = pos.quantity ∧ u.average_cost = pos.average_cost ∧
        u.status = pos.status ∧ u.opened_at = pos.opened_at ∧
        u.closed_at = pos.closed_at) ∧
    ((s.prices pos.symbol = none ∨ s.prices pos.symbol = some 0) →
      getById (update_position_values s now).active pos.id = some pos) ∧
    (update_position_values s now).history = s.history ∧
    (update_position_values s now).transactions = s.transactions := by
  have hndf : ((s.active.filter
      (fun p => p.status = PositionStatus.active)).map
      (fun x => x.id)).Nodup :=
    List.Nodup.sublist
      (List.Sublist.map _ (List.filter_sublist s.active)) hnd
  refine ⟨?_, ?_, rfl, rfl⟩
  · intro cp hst hcp hz
    refine ⟨upv_update cp now pos, ?_, rfl, rfl, rfl, rfl, rfl, rfl, rfl,
      rfl, rfl, rfl⟩
    unfold update_position_values
    dsimp only
    have hmf : pos ∈ s.active.filter
        (fun p => p.status = PositionStatus.active) := by
      rw [List.mem_filter]
      exact ⟨hmem, by simp [hst]⟩
    have hsome : (getById s.active pos.id).isSome := by
      rw [getById_eq_some_of_mem_nodup hnd hmem]; rfl
    exact getById_foldl_update s now _ s.active pos cp hndf hmf hsome hcp hz
  · intro hbad
    unfold update_position_values
    dsimp only
    rw [getById_foldl_skip s now _ s.active pos.id ?_]
    · exact getById_eq_some_of_mem_nodup hnd hmem
    · intro x hx hxi
      have hxa : x ∈ s.active := (List.mem_filter.mp hx).1
      have hxeq : x = pos := eq_of_id_eq_of_mem_nodup hnd hxa hmem hxi
      subst hxeq
      exact hbad

/-- Claim C10 counterexample: for close price 0.10000000000000001 and one
share, the claim asserts a stored `market_value` of exactly
price × quantity, but the field is stored through `float(...)` and is
observed as 0.1 ≠ 0.10000000000000001. -/
theorem C10_counterexample :
    ¬ ((getById (update_position_values c10Store 1).active
          c10Pos.id).map (fun p => p.market_value) =
      some (some ((10000000000000001 / 10 ^ 17) *
        (c10Pos.quantity : ℚ)))) := by decide

/-- Claim C10 witness: the valuation pass on `c10Store` rewrites exactly
the four refreshed fields of `c10Pos`. -/
theorem C10_value_refresh_frame_witness :
    ∃ u, getById (update_position_values c10Store 1).active c10Pos.id =
        some u ∧
      u.current_price = some (reprFloat (10000000000000001 / 10 ^ 17)) ∧
      u.market_value = some (reprFloat
        (decMul (10000000000000001 / 10 ^ 17) (c10Pos.quantity : ℚ))) ∧
      u.unrealized_pnl = some (reprFloat (decMul
        (decSub (10000000000000001 / 10 ^ 17) c10Pos.average_cost)
        (c10Pos.quantity : ℚ))) ∧
      u.updated_at = 1 ∧ u.symbol = c10Pos.symbol ∧
      u.quantity = c10Pos.quantity ∧
      u.average_cost = c10Pos.average_cost ∧
      u.status = c10Pos.status ∧ u.opened_at = c10Pos.opened_at ∧
      u.closed_at = c10Pos.closed_at :=
  (C10_value_refresh_frame c10Store 1 c10Pos (by decide) (by decide)).1
    (10000000000000001 / 10 ^ 17) rfl (by decide) (by norm_num)
